import Mathlib

/-!
Verification of the Oracle document loader
(`libs/langchain-community/src/document_loaders/web/oracleai.ts`).

The TypeScript source is shallowly embedded below:

* `aset`/`aget` model JavaScript object key assignment/lookup
  (`metadata[k] = v`, last write wins, insertion order preserved);
* `sha256` is a byte-level embedding of the SHA-256 digest used by
  `crypto.createHash("sha256")` (strings are UTF-8 encoded first);
* `generateObjectId` embeds `OracleDocReader.generateObjectId`, with the
  ambient time and the two random sources passed in as a `GenEnv`;
* `ParserState`, `handleStartTag`, `handleData` embed
  `ParseOracleDocMetadata`; the htmlparser2 tokenizer is an external
  collaborator, modelled as a `String → List HtmlEvent` parameter;
* `loadFromTable` embeds `OracleDocLoader.loadFromTable`, with the
  database connection modelled as the prefetched `Db` data and the list
  of executed queries recorded as a trace;
* `readFile` embeds `OracleDocReader.readFile`, with every awaited
  external call modelled as an `Except`-valued field of `FileEnv`.
-/

/-- Values a JavaScript metadata map can hold in this module: strings,
numbers, `null` and `undefined`. -/
inductive MVal
  | str (s : String)
  | num (n : Int)
  | null
  | undef
deriving DecidableEq

/-- JavaScript object update `m[k] = v`: overwrite in place if the key is
present, else append.  Maps built from `[]` by `aset` have unique keys,
exactly like JavaScript objects. -/
def aset {α : Type} : List (String × α) → String → α → List (String × α)
  | [], k, v => [(k, v)]
  | p :: m, k, v => if p.1 = k then (k, v) :: m else p :: aset m k v

/-- JavaScript object read `m[k]`, `none` when the key is absent. -/
def aget {α : Type} : List (String × α) → String → Option α
  | [], _ => none
  | p :: m, k => if p.1 = k then some p.2 else aget m k

/-- A document metadata map. -/
def Metadata : Type := List (String × MVal)

instance : DecidableEq Metadata := by
  unfold Metadata; infer_instance

/-! ## SHA-256 (the `crypto.createHash("sha256")` collaborator) -/

/-- 2^32, the word modulus of SHA-256 arithmetic. -/
def M32 : Nat := 4294967296

/-- Rotate a 32-bit word right by `n`. -/
def rotr32 (n x : Nat) : Nat := ((x >>> n) ||| (x <<< (32 - n))) % M32

def bigSigma0 (x : Nat) : Nat := rotr32 2 x ^^^ rotr32 13 x ^^^ rotr32 22 x

def bigSigma1 (x : Nat) : Nat := rotr32 6 x ^^^ rotr32 11 x ^^^ rotr32 25 x

def smallSigma0 (x : Nat) : Nat := rotr32 7 x ^^^ rotr32 18 x ^^^ (x >>> 3)

def smallSigma1 (x : Nat) : Nat := rotr32 17 x ^^^ rotr32 19 x ^^^ (x >>> 10)

/-- The 64 SHA-256 round constants (FIPS 180-4), as decimal naturals. -/
def sha256K : List Nat :=
  [1116352408, 1899447441, 3049323471, 3921009573, 961987163,
   1508970993, 2453635748, 2870763221, 3624381080, 310598401,
   607225278, 1426881987, 1925078388, 2162078206, 2614888103,
   3248222580, 3835390401, 4022224774, 264347078, 604807628,
   770255983, 1249150122, 1555081692, 1996064986, 2554220882,
   2821834349, 2952996808, 3210313671, 3336571891, 3584528711,
   113926993, 338241895, 666307205, 773529912, 1294757372,
   1396182291, 1695183700, 1986661051, 2177026350, 2456956037,
   2730485921, 2820302411, 3259730800, 3345764771, 3516065817,
   3600352804, 4094571909, 275423344, 430227734, 506948616,
   659060556, 883997877, 958139571, 1322822218, 1537002063,
   1747873779, 1955562222, 2024104815, 2227730452, 2361852424,
   2428436474, 2756734187, 3204031479, 3329325298]

/-- The eight 32-bit working variables of SHA-256. -/
structure Sha256State where
  a : Nat
  b : Nat
  c : Nat
  d : Nat
  e : Nat
  f : Nat
  g : Nat
  h : Nat

def sha256Init : Sha256State :=
  ⟨1779033703, 3144134277, 1013904242, 2773480762,
   1359893119, 2600822924, 528734635, 1541459225⟩

/-- The first 16 message-schedule words of a 64-byte block. -/
def wordsOfBlock (block : List Nat) : List Nat :=
  (List.range 16).map (fun i =>
    (block.getD (4 * i) 0) <<< 24 ||| (block.getD (4 * i + 1) 0) <<< 16 |||
    (block.getD (4 * i + 2) 0) <<< 8 ||| block.getD (4 * i + 3) 0)

/-- Append the next message-schedule word. -/
def extendW (w : List Nat) : List Nat :=
  let n := w.length
  w ++ [(smallSigma1 (w.getD (n - 2) 0) + w.getD (n - 7) 0 +
         smallSigma0 (w.getD (n - 15) 0) + w.getD (n - 16) 0) % M32]

/-- The 64-word message schedule of a block. -/
def schedule (block : List Nat) : List Nat := extendW^[48] (wordsOfBlock block)

/-- One SHA-256 round; `kw` is the round constant plus the schedule word. -/
def sha256Round (st : Sha256State) (kw : Nat) : Sha256State :=
  let ch := (st.e &&& st.f) ^^^ ((st.e ^^^ 0xffffffff) &&& st.g)
  let t1 := (st.h + bigSigma1 st.e + ch + kw) % M32
  let mj := (st.a &&& st.b) ^^^ (st.a &&& st.c) ^^^ (st.b &&& st.c)
  let t2 := (bigSigma0 st.a + mj) % M32
  ⟨(t1 + t2) % M32, st.a, st.b, st.c, (st.d + t1) % M32, st.e, st.f, st.g⟩

/-- Compress one 64-byte block into the running state. -/
def sha256Compress (st : Sha256State) (block : List Nat) : Sha256State :=
  let kws := (sha256K.zip (schedule block)).map (fun p => (p.1 + p.2) % M32)
  let w := kws.foldl sha256Round st
  ⟨(st.a + w.a) % M32, (st.b + w.b) % M32, (st.c + w.c) % M32,
   (st.d + w.d) % M32, (st.e + w.e) % M32, (st.f + w.f) % M32,
   (st.g + w.g) % M32, (st.h + w.h) % M32⟩

/-- Big-endian 8-byte encoding of a (64-bit) length. -/
def be8 (n : Nat) : List Nat :=
  [n / 72057594037927936 % 256, n / 281474976710656 % 256,
   n / 1099511627776 % 256, n / 4294967296 % 256,
   n / 16777216 % 256, n / 65536 % 256, n / 256 % 256, n % 256]

/-- SHA-256 padding: `0x80`, zeros to 56 mod 64, then the bit length. -/
def sha256Pad (msg : List Nat) : List Nat :=
  msg ++ [0x80] ++ List.replicate ((119 - msg.length % 64) % 64) 0 ++
    be8 (8 * msg.length)

/-- Fold the first `n` 64-byte blocks of `l` into the state. -/
def processBlocks (st : Sha256State) (l : List Nat) : Nat → Sha256State
  | 0 => st
  | n + 1 => processBlocks (sha256Compress st (l.take 64)) (l.drop 64) n

/-- Big-endian 4-byte split of a 32-bit word. -/
def word4 (w : Nat) : List Nat :=
  [w / 16777216 % 256, w / 65536 % 256, w / 256 % 256, w % 256]

/-- The SHA-256 digest (32 bytes) of a byte list. -/
def sha256BytesOf (msg : List Nat) : List Nat :=
  let p := sha256Pad msg
  let w := processBlocks sha256Init p (p.length / 64)
  word4 w.a ++ word4 w.b ++ word4 w.c ++ word4 w.d ++
  word4 w.e ++ word4 w.f ++ word4 w.g ++ word4 w.h

/-- UTF-8 bytes of one character (Node encodes strings as UTF-8 before
hashing). -/
def utf8Bytes (c : Char) : List Nat :=
  let n := c.toNat
  if n < 0x80 then [n]
  else if n < 0x800 then [0xc0 + n / 64, 0x80 + n % 64]
  else if n < 0x10000 then
    [0xe0 + n / 4096, 0x80 + n / 64 % 64, 0x80 + n % 64]
  else
    [0xf0 + n / 262144, 0x80 + n / 4096 % 64, 0x80 + n / 64 % 64,
     0x80 + n % 64]

def bytesOfChars : List Char → List Nat
  | [] => []
  | c :: cs => utf8Bytes c ++ bytesOfChars cs

/-- UTF-8 byte encoding of a string. -/
def strBytes (s : String) : List Nat := bytesOfChars s.data

/-- `crypto.createHash("sha256").update(s).digest()` as a byte list. -/
def sha256 (s : String) : List Nat := sha256BytesOf (strBytes s)

/-! ## `OracleDocReader.generateObjectId` -/

/-- The ambient inputs of one `generateObjectId` call: the current Unix
time in seconds, the random source used to synthesize a seed when none is
given (`Math.floor(Math.random() * 62)` per character, modelled as an
arbitrary natural source reduced mod 62), and the random 4-byte counter
(`Math.floor(Math.random() * 2 ** 32)`). -/
structure GenEnv where
  timestamp : Nat
  seedRnd : Nat → Nat
  counterRnd : Nat

/-- The 62-character alphabet of the synthesized seed. -/
def alphaNumChars : List Char :=
  "abcdefghijklmnopqrstuvwxyzABCDEFGHIJKLMNOPQRSTUVWXYZ0123456789".data

/-- The 16-character random alphanumeric seed synthesized when the input
string is absent or empty. -/
def synthSeed (rnd : Nat → Nat) : String :=
  String.mk ((List.range 16).map (fun i => alphaNumChars.getD (rnd i % 62) 'a'))

/-- Big-endian 4-byte encoding, as `Buffer.writeUInt32BE` produces for
in-range values. -/
def be4 (n : Nat) : List Nat :=
  [n / 16777216 % 256, n / 65536 % 256, n / 256 % 256, n % 256]

def hexDigits : List Char := "0123456789abcdef".data

/-- The two lower-case hex digits of one byte. -/
def byteHex (b : Nat) : List Char :=
  [hexDigits.getD (b / 16) 'x', hexDigits.getD (b % 16) 'x']

/-- `Buffer.toString("hex")`: two lower-case hex digits per byte. -/
def hexEncode : List Nat → List Char
  | [] => []
  | b :: bs => byteHex b ++ hexEncode bs

/-- The seed actually hashed: `!inputString` (absent or empty) falls back
to the synthesized random seed. -/
def effectiveSeed (inputString : Option String) (rnd : Nat → Nat) : String :=
  match inputString with
  | none => synthSeed rnd
  | some s => if s = "" then synthSeed rnd else s

/-- Embeds `OracleDocReader.generateObjectId`: 4 timestamp bytes, the
first 8 digest bytes of the seed, 4 random counter bytes; hex-encoded,
left-padded with `0` to 32 and sliced to 32. -/
def generateObjectId (inputString : Option String) (g : GenEnv) : String :=
  let outLength := 32
  let hashLen := 8
  let input := effectiveSeed inputString g.seedRnd
  let timestampBin := be4 g.timestamp
  let truncatedHashVal := (sha256 input).take hashLen
  let counterBin := be4 g.counterRnd
  let objectId := timestampBin ++ truncatedHashVal ++ counterBin
  let objectIdHex :=
    List.replicate (outLength - (hexEncode objectId).length) '0' ++
      hexEncode objectId
  String.mk (objectIdHex.take outLength)

/-! ## `ParseOracleDocMetadata` -/

/-- The two htmlparser2 callbacks the parser subscribes to: an open tag
with its ordered attribute list, and a text node. -/
inductive HtmlEvent
  | startTag (tag : String) (attrs : List (String × Option String))
  | text (data : String)
deriving DecidableEq

/-- The parser's state: the accumulated metadata map and the `match`
flag armed by a `<title>` open tag. -/
structure ParserState where
  metadata : Metadata
  titleMatch : Bool
deriving DecidableEq

/-- One step of the `attrs.forEach` scan in `handleStartTag`:
`entry = value ?? ""` on a `name` attribute, `content = value` on a
`content` attribute. -/
def metaStep (ec : Option String × Option String) (p : String × Option String) :
    Option String × Option String :=
  (if p.1 = "name" then some (p.2.getD "") else ec.1,
   if p.1 = "content" then p.2 else ec.2)

/-- The full `attrs.forEach` scan of `handleStartTag`. -/
def metaScan (attrs : List (String × Option String)) :
    Option String × Option String :=
  attrs.foldl metaStep (none, none)

/-- Embeds `ParseOracleDocMetadata.handleStartTag`. -/
def handleStartTag (st : ParserState) (tag : String)
    (attrs : List (String × Option String)) : ParserState :=
  if tag = "meta" then
    let ec := metaScan attrs
    match ec.1 with
    | some entry =>
        if entry = "" then st
        else { st with metadata := aset st.metadata entry (.str (ec.2.getD "N/A")) }
    | none => st
  else if tag = "title" then { st with titleMatch := true }
  else st

/-- Embeds `ParseOracleDocMetadata.handleData`. -/
def handleData (st : ParserState) (data : String) : ParserState :=
  if st.titleMatch then
    { metadata := aset st.metadata "title" (.str data), titleMatch := false }
  else st

def handleEvent (st : ParserState) : HtmlEvent → ParserState
  | .startTag tag attrs => handleStartTag st tag attrs
  | .text data => handleData st data

/-- Feed a stream of tokenizer events through the parser. -/
def runEvents (st : ParserState) (evs : List HtmlEvent) : ParserState :=
  evs.foldl handleEvent st

/-- `new ParseOracleDocMetadata(); parser.parse(s); parser.getMetadata()`,
with the htmlparser2 tokenizer abstracted as `tok`. -/
def parseMetadata (tok : String → List HtmlEvent) (s : String) : Metadata :=
  (runEvents ⟨[], false⟩ (tok s)).metadata

/-! ## `OracleDocLoader` — table ingestion path -/

/-- Embeds `isValidIdentifier`, the regex `^[A-Za-z_][A-Za-z0-9_]*$`. -/
def isIdentFirst (ch : Char) : Bool :=
  (decide ('A' ≤ ch) && decide (ch ≤ 'Z')) ||
  (decide ('a' ≤ ch) && decide (ch ≤ 'z')) || ch == '_'

def isIdentRest (ch : Char) : Bool :=
  isIdentFirst ch || (decide ('0' ≤ ch) && decide (ch ≤ '9'))

def isValidIdentifier (s : String) : Bool :=
  match s.data with
  | [] => false
  | ch :: rest => isIdentFirst ch && rest.all isIdentRest

/-- A produced document: the constructor arguments of
`new Document(text, metadata)`. -/
structure Document where
  text : String
  metadata : Metadata
deriving DecidableEq

/-- One row of the main query's result set. -/
structure TableRow where
  mdata : Option String
  text : Option String
  rowid : String
  cols : List (String × MVal)
deriving DecidableEq

/-- The database connection, modelled as the data each of the three
queries would return.  `catalogRows` are `(COLUMN_NAME, DATA_TYPE)` pairs
(`none` = `rows` undefined); `userRow` is `rows?.[0]?.[0]` of
`SELECT USER FROM dual` (`none` = no rows, `some none` = null cell). -/
structure Db where
  catalogRows : Option (List (String × String))
  mainRows : Option (List TableRow)
  userRow : Option (Option String)
deriving DecidableEq

/-- The loader configuration: the constructor arguments relevant to the
table path. -/
structure LoaderCfg where
  loadFrom : String
  owner : Option String
  colname : Option String
  mdata_cols : Option (List String)
deriving DecidableEq

/-- The database round trips `loadFromTable` can issue, in order. -/
inductive Query
  | catalog
  | mainQ
  | userQ
deriving DecidableEq

/-- Embeds `getUsername`: `result.rows?.[0]?.[0] || "unknown_user"`
(the empty string is falsy too). -/
def getUsername (db : Db) : String :=
  match db.userRow with
  | some (some s) => if s = "" then "unknown_user" else s
  | _ => "unknown_user"

/-- Builds the `colTypes` record from the catalog rows (later rows
overwrite earlier ones, as JavaScript object assignment does). -/
def buildColTypes (rows : List (String × String)) : List (String × String) :=
  rows.foldl (fun m p => aset m p.1 p.2) []

/-- The allow-list of supported `DATA_TYPE`s for extra metadata columns. -/
def allowedTypes : List String :=
  ["NUMBER", "BINARY_DOUBLE", "BINARY_FLOAT", "LONG", "DATE", "TIMESTAMP",
   "VARCHAR2"]

/-- The per-column validation loop over `mdata_cols`: first failure wins;
`!dataType` in the source is falsy for both a missing and an empty type. -/
def checkCols (table : String) (colTypes : List (String × String)) :
    List String → Option String
  | [] => none
  | col :: rest =>
      if !(isValidIdentifier col) then
        some ("Invalid column name in mdata_cols: " ++ col)
      else
        match aget colTypes col with
        | none => some ("Column " ++ col ++ " not found in table " ++ table)
        | some dt =>
            if dt = "" then
              some ("Column " ++ col ++ " not found in table " ++ table)
            else if allowedTypes.contains dt then checkCols table colTypes rest
            else some ("The datatype for the column " ++ col ++ " is not supported")

/-- `row[colName]`: `undefined` when the row lacks the column. -/
def rowVal (row : TableRow) (c : String) : MVal :=
  (aget row.cols c).getD MVal.undef

/-- The id-generation seed
`` `${username}$${owner}$${loadFrom}$${colname}$${rowid}` ``. -/
def seedFor (username o table c rowid : String) : String :=
  username ++ "$" ++ o ++ "$" ++ table ++ "$" ++ c ++ "$" ++ rowid

/-- The per-row document assembly of `loadFromTable`: parse `MDATA` when
it is truthy and carries an HTML signature, stamp `_oid` and `_rowid`,
copy the extra columns, fall back to `""` for a null/undefined `TEXT`. -/
def buildDoc (o table c : String) (mcols : List String)
    (tok : String → List HtmlEvent) (username : String) (g : GenEnv)
    (row : TableRow) : Document :=
  let metadata0 : Metadata :=
    match row.mdata with
    | some data =>
        if data != "" &&
            (data.startsWith "<!DOCTYPE html" || data.startsWith "<HTML>") then
          parseMetadata tok data
        else []
    | none => []
  let docId := generateObjectId (some (seedFor username o table c row.rowid)) g
  let m1 := aset metadata0 "_oid" (.str docId)
  let m2 := aset m1 "_rowid" (.str row.rowid)
  let m3 := mcols.foldl (fun m col => aset m col (rowVal row col)) m2
  { text := row.text.getD "", metadata := m3 }

/-- The row loop of `loadFromTable`; each call of `generateObjectId`
draws its own ambient randomness, indexed by the row position. -/
def buildDocs (o table c : String) (mcols : List String)
    (tok : String → List HtmlEvent) (username : String) (env : Nat → GenEnv) :
    Nat → List TableRow → List Document
  | _, [] => []
  | i, r :: rs =>
      buildDoc o table c mcols tok username (env i) r ::
      buildDocs o table c mcols tok username env (i + 1) rs

/-- The tail of `loadFromTable` after all validation: execute the main
query, fetch the session user, assemble one document per row. -/
def mainPhase (o c : String) (cfg : LoaderCfg) (db : Db) (env : Nat → GenEnv)
    (tok : String → List HtmlEvent) (qs : List Query) :
    Except String (List Document) × List Query :=
  (Except.ok (buildDocs o cfg.loadFrom c (cfg.mdata_cols.getD []) tok
      (getUsername db) env 0 (db.mainRows.getD [])),
   qs ++ [Query.mainQ, Query.userQ])

/-- Embeds `loadFromTable`.  Returns the thrown error or the document
list, paired with the trace of database round trips actually issued. -/
def loadFromTable (cfg : LoaderCfg) (db : Db) (env : Nat → GenEnv)
    (tok : String → List HtmlEvent) :
    Except String (List Document) × List Query :=
  match cfg.owner, cfg.colname with
  | some o, some c =>
      if o = "" ∨ c = "" then
        (Except.error "Owner and column name must be specified for loading from a table", [])
      else if !(isValidIdentifier o) then
        (Except.error "Invalid owner name", [])
      else if !(isValidIdentifier cfg.loadFrom) then
        (Except.error "Invalid table name", [])
      else if !(isValidIdentifier c) then
        (Except.error "Invalid column name", [])
      else
        match cfg.mdata_cols with
        | some l =>
            if 3 < l.length then
              (Except.error "Exceeds max columns for metadata", [])
            else
              match db.catalogRows with
              | none =>
                  (Except.error "Failed to retrieve column information",
                   [Query.catalog])
              | some colRows =>
                  match checkCols cfg.loadFrom (buildColTypes colRows) l with
                  | some msg => (Except.error msg, [Query.catalog])
                  | none => mainPhase o c cfg db env tok [Query.catalog]
        | none => mainPhase o c cfg db env tok []
  | _, _ =>
      (Except.error "Owner and column name must be specified for loading from a table", [])

/-! ## `OracleDocReader.readFile` — file ingestion path -/

/-- The external effects one `readFile` call performs, in order: the
`fs.readFile` outcome (`Except.error` = exception; `none` = a null/undefined
buffer), the extraction call's outcome (each out-bind is `none` for a null
LOB, otherwise the CLOB read's outcome), the session-user query's outcome
(`none` = no `USERNAME` value), and the id-generation ambient inputs. -/
structure FileEnv where
  readData : Except String (Option (List Nat))
  execOut : Except String (Option (Except String String) × Option (Except String String))
  userRes : Except String (Option String)
  genv : GenEnv

/-- The body of `readFile`'s `try` block; `Except.error` is an exception
reaching the `catch`. -/
def readFileBody (filePath : String) (tok : String → List HtmlEvent)
    (env : FileEnv) : Except String Document := do
  let dataOpt ← env.readData
  match dataOpt with
  | none => pure ⟨"", []⟩
  | some _ =>
      let ob ← env.execOut
      let docData ← match ob.1 with
        | none => Except.ok ""
        | some r => r
      let textData ← match ob.2 with
        | none => Except.ok ""
        | some r => r
      let metadata :=
        if docData.startsWith "<!DOCTYPE html" || docData.startsWith "<HTML>" then
          parseMetadata tok docData
        else []
      let uname ← env.userRes
      let username := match uname with
        | some s => s
        | none => "undefined"
      let docId := generateObjectId (some (username ++ "$" ++ filePath)) env.genv
      let m1 := aset metadata "_oid" (.str docId)
      let m2 := aset m1 "_file" (.str filePath)
      if textData = "" then pure ⟨"", m2⟩ else pure ⟨textData, m2⟩

/-- Embeds `readFile`: any exception in the body is caught and logged and
the call returns `null` (here `none`). -/
def readFile (filePath : String) (tok : String → List HtmlEvent)
    (env : FileEnv) : Option Document :=
  match readFileBody filePath tok env with
  | .ok d => some d
  | .error _ => none

/-! ## Map lemmas -/

lemma aget_aset_self {α : Type} (m : List (String × α)) (k : String) (v : α) :
    aget (aset m k v) k = some v := by
  induction m with
  | nil => simp [aset, aget]
  | cons p m ih =>
      by_cases h : p.1 = k <;> simp [aset, aget, h, ih]

lemma aget_aset_ne {α : Type} (m : List (String × α)) (k k' : String) (v : α)
    (h : k' ≠ k) : aget (aset m k v) k' = aget m k' := by
  induction m with
  | nil => simp [aset, aget, Ne.symm h]
  | cons p m ih =>
      rcases Decidable.em (p.1 = k) with h1 | h1
      · rcases Decidable.em (p.1 = k') with h2 | h2
        · exact absurd (h2.symm.trans h1) h
        · simp [aset, aget, h1, h2, Ne.symm h]
      · rcases Decidable.em (p.1 = k') with h2 | h2
        · simp [aset, aget, h1, h2, h]
        · simp [aset, aget, h1, h2, ih]

lemma isSome_aget_aset {α : Type} (m : List (String × α)) (k k' : String)
    (v : α) :
    (aget (aset m k v) k').isSome = true ↔
      k' = k ∨ (aget m k').isSome = true := by
  by_cases h : k' = k
  · subst h; simp [aget_aset_self]
  · rw [aget_aset_ne m k k' v h]; simp [h]

lemma aget_foldl_aset_not_mem {α : Type} (cols : List String)
    (f : String → α) (m0 : List (String × α)) (k : String) :
    k ∉ cols →
      aget (cols.foldl (fun m col => aset m col (f col)) m0) k = aget m0 k := by
  induction cols generalizing m0 with
  | nil => intro _; rfl
  | cons c cs ih =>
      intro hk
      rw [List.mem_cons, not_or] at hk
      simp only [List.foldl_cons]
      rw [ih _ hk.2, aget_aset_ne _ _ _ _ hk.1]

lemma isSome_aget_foldl_aset {α : Type} (cols : List String)
    (f : String → α) (m0 : List (String × α)) (k : String) :
    (aget (cols.foldl (fun m col => aset m col (f col)) m0) k).isSome = true ↔
      k ∈ cols ∨ (aget m0 k).isSome = true := by
  induction cols generalizing m0 with
  | nil => simp
  | cons c cs ih =>
      simp only [List.foldl_cons]
      rw [ih]
      rw [isSome_aget_aset]
      simp only [List.mem_cons]
      tauto

/-! ## Digest and hex lemmas -/

lemma word4_lt (w : Nat) : ∀ b ∈ word4 w, b < 256 := by
  intro b hb
  simp [word4] at hb
  rcases hb with h | h | h | h <;> omega

lemma sha256BytesOf_length (msg : List Nat) : (sha256BytesOf msg).length = 32 := by
  simp [sha256BytesOf, word4]

lemma sha256BytesOf_mem_lt (msg : List Nat) :
    ∀ b ∈ sha256BytesOf msg, b < 256 := by
  intro b hb
  simp only [sha256BytesOf, List.mem_append] at hb
  rcases hb with ((((((h | h) | h) | h) | h) | h) | h) | h <;>
    exact word4_lt _ _ h

lemma sha256_length (s : String) : (sha256 s).length = 32 :=
  sha256BytesOf_length _

lemma sha256_mem_lt (s : String) : ∀ b ∈ sha256 s, b < 256 :=
  sha256BytesOf_mem_lt _

lemma be4_lt (n : Nat) : ∀ b ∈ be4 n, b < 256 := by
  intro b hb
  simp [be4] at hb
  rcases hb with h | h | h | h <;> omega

lemma hexEncode_length (bs : List Nat) :
    (hexEncode bs).length = 2 * bs.length := by
  induction bs with
  | nil => rfl
  | cons b bs ih => simp [hexEncode, byteHex, ih]; omega

lemma mem_byteHex (b : Nat) (hb : b < 256) :
    ∀ ch ∈ byteHex b, ch ∈ hexDigits := by
  intro ch hch
  have h16 : hexDigits.length = 16 := rfl
  simp only [byteHex, List.mem_cons, List.not_mem_nil, or_false] at hch
  rcases hch with h | h <;> subst h
  · rw [List.getD_eq_getElem _ _ (by omega)]
    exact List.getElem_mem _
  · rw [List.getD_eq_getElem _ _ (by omega)]
    exact List.getElem_mem _

lemma mem_hexEncode (bs : List Nat) (hb : ∀ b ∈ bs, b < 256) :
    ∀ ch ∈ hexEncode bs, ch ∈ hexDigits := by
  induction bs with
  | nil => simp [hexEncode]
  | cons b bs ih =>
      intro ch hch
      simp only [hexEncode, List.mem_append] at hch
      rcases hch with h | h
      · exact mem_byteHex b (hb b (List.mem_cons_self _ _)) ch h
      · exact ih (fun x hx => hb x (List.mem_cons_of_mem _ hx)) ch h

lemma synthSeed_length (rnd : Nat → Nat) : (synthSeed rnd).length = 16 := by
  simp [synthSeed, String.length]

lemma synthSeed_mem (rnd : Nat → Nat) :
    ∀ ch ∈ (synthSeed rnd).data, ch ∈ alphaNumChars := by
  intro ch hch
  have h62 : alphaNumChars.length = 62 := rfl
  simp only [synthSeed, String.mk, List.mem_map, List.mem_range] at hch
  obtain ⟨i, _, hi⟩ := hch
  rw [← hi, List.getD_eq_getElem _ _ (by omega)]
  exact List.getElem_mem _

/-! ## `generateObjectId` characterization -/

lemma objectIdBytes_length (i : Option String) (g : GenEnv) :
    (be4 g.timestamp ++ (sha256 (effectiveSeed i g.seedRnd)).take 8 ++
      be4 g.counterRnd).length = 16 := by
  simp [be4, List.length_take, sha256_length]

lemma generateObjectId_eq (i : Option String) (g : GenEnv) :
    generateObjectId i g =
      String.mk (hexEncode (be4 g.timestamp ++
        (sha256 (effectiveSeed i g.seedRnd)).take 8 ++ be4 g.counterRnd)) := by
  have hlen : (hexEncode (be4 g.timestamp ++
      (sha256 (effectiveSeed i g.seedRnd)).take 8 ++
      be4 g.counterRnd)).length = 32 := by
    rw [hexEncode_length, objectIdBytes_length]
  simp only [generateObjectId]
  rw [hlen]
  simp only [Nat.sub_self, List.replicate_zero, List.nil_append]
  rw [List.take_of_length_le (le_of_eq hlen)]

lemma generateObjectId_length (i : Option String) (g : GenEnv) :
    (generateObjectId i g).length = 32 := by
  rw [generateObjectId_eq]
  show (hexEncode _).length = 32
  rw [hexEncode_length, objectIdBytes_length]

/-- Claim C2: for every seed (with a 16-character random alphanumeric seed
synthesized when the seed is absent or empty), `generateObjectId` returns
exactly 32 lower-case hexadecimal characters, namely the hex encoding of
the 4-byte big-endian timestamp, the first 8 bytes of the SHA-256 hash of
the seed, and the 4 random counter bytes, left-padded with `0` to 32
characters if shorter; it is a total function (never fails). -/
theorem c2_generateObjectId_format (inputString : Option String) (g : GenEnv) :
    (generateObjectId inputString g).length = 32 ∧
    (∀ ch ∈ (generateObjectId inputString g).data, ch ∈ hexDigits) ∧
    generateObjectId inputString g =
      String.mk (hexEncode (be4 g.timestamp ++
        (sha256 (effectiveSeed inputString g.seedRnd)).take 8 ++
        be4 g.counterRnd)) ∧
    ((inputString = none ∨ inputString = some "") →
      effectiveSeed inputString g.seedRnd = synthSeed g.seedRnd) ∧
    (synthSeed g.seedRnd).length = 16 ∧
    (∀ ch ∈ (synthSeed g.seedRnd).data, ch ∈ alphaNumChars) := by
  refine ⟨generateObjectId_length _ _, ?_, generateObjectId_eq _ _, ?_,
    synthSeed_length _, synthSeed_mem _⟩
  · intro ch hch
    rw [generateObjectId_eq] at hch
    refine mem_hexEncode _ ?_ ch hch
    intro b hb
    simp only [List.mem_append] at hb
    rcases hb with (h | h) | h
    · exact be4_lt _ _ h
    · exact sha256_mem_lt _ _ (List.take_subset _ _ h)
    · exact be4_lt _ _ h
  · rintro (h | h) <;> subst h <;> rfl

/-- Witness for C2 at a concrete seed and environment. -/
theorem c2_witness :
    (generateObjectId (some "seed") ⟨0, fun _ => 0, 0⟩).length = 32 :=
  (c2_generateObjectId_format (some "seed") ⟨0, fun _ => 0, 0⟩).1

/-! ## Parser lemmas and claims C3, C4 -/

/-- The value of the last attribute with the given name, mirroring the
last-write-wins `forEach` scan (`none` = no such attribute). -/
def lookupLast (k : String) : List (String × Option String) → Option (Option String)
  | [] => none
  | p :: rest =>
      match lookupLast k rest with
      | some v => some v
      | none => if p.1 = k then some p.2 else none

lemma metaFold_eq (attrs : List (String × Option String))
    (e0 c0 : Option String) :
    attrs.foldl metaStep (e0, c0) =
      ((match lookupLast "name" attrs with
        | some v => some (v.getD "")
        | none => e0),
       (match lookupLast "content" attrs with
        | some v => v
        | none => c0)) := by
  induction attrs generalizing e0 c0 with
  | nil => simp [lookupLast]
  | cons p rest ih =>
      simp only [List.foldl_cons, metaStep, ih]
      rcases hn : lookupLast "name" rest with _ | v <;>
        rcases hc : lookupLast "content" rest with _ | w <;>
          rcases Decidable.em (p.1 = "name") with h1 | h1 <;>
            rcases Decidable.em (p.1 = "content") with h2 | h2 <;>
              first
              | exact absurd (h1 ▸ h2) (by decide)
              | simp [lookupLast, hn, hc, h1, h2]

/-- Claim C3 (amended): on a `meta` open tag the flag is untouched and the
metadata update is governed by the last `name` attribute: if it is present
with a non-empty (non-null) value, that key is set to the last `content`
attribute's non-null value, or `"N/A"` when no such value exists; a `meta`
tag whose `name` attribute is absent, null-valued or empty adds no key. -/
theorem c3_meta_tag_metadata (st : ParserState)
    (attrs : List (String × Option String)) :
    (handleStartTag st "meta" attrs).titleMatch = st.titleMatch ∧
    (handleStartTag st "meta" attrs).metadata =
      (match lookupLast "name" attrs with
       | none => st.metadata
       | some v =>
           if v.getD "" = "" then st.metadata
           else
             aset st.metadata (v.getD "")
               (MVal.str (((lookupLast "content" attrs).join).getD "N/A"))) := by
  have hscan := metaFold_eq attrs none none
  simp only [handleStartTag, if_pos rfl, metaScan] at *
  rw [hscan]
  rcases hn : lookupLast "name" attrs with _ | v
  · exact ⟨rfl, rfl⟩
  · rcases Decidable.em (v.getD "" = "") with h | h
    · simp [h]
    · rcases hc : lookupLast "content" attrs with _ | w <;>
        simp [h, Option.join]

/-- Counterexample to C3 as stated: a `meta` tag whose `name` attribute is
present but empty (`<meta name="">`) adds no key, while the claim says
`metadata[name] = "N/A"` would be recorded for it. -/
theorem c3_counterexample :
    lookupLast "name" [("name", some "")] = some (some "") ∧
    (handleStartTag ⟨[], false⟩ "meta" [("name", some "")]).metadata = [] ∧
    aget (handleStartTag ⟨[], false⟩ "meta" [("name", some "")]).metadata ""
      = none := by
  refine ⟨rfl, rfl, rfl⟩

/-- Claim C4: a `title` open tag arms the capture flag; open tags never
disarm it; the first text event while armed records `metadata["title"]`
and disarms the flag immediately; text events while disarmed are ignored;
only a `title` open tag can re-arm the flag. -/
theorem c4_title_capture (st : ParserState) (pre : List HtmlEvent) (d : String)
    (harm : st.titleMatch = true)
    (hpre : ∀ e ∈ pre, ∃ t a, e = HtmlEvent.startTag t a) :
    (runEvents st pre).titleMatch = true ∧
    aget (runEvents st (pre ++ [HtmlEvent.text d])).metadata "title"
      = some (MVal.str d) ∧
    (runEvents st (pre ++ [HtmlEvent.text d])).titleMatch = false ∧
    (∀ st2 d2, st2.titleMatch = false → handleData st2 d2 = st2) ∧
    (∀ st2 t a, t ≠ "title" →
      (handleStartTag st2 t a).titleMatch = st2.titleMatch) ∧
    (∀ st2 t a, st2.titleMatch = true →
      (handleStartTag st2 t a).titleMatch = true) := by
  have hopen : ∀ st2 t a, st2.titleMatch = true →
      (handleStartTag st2 t a).titleMatch = true := by
    intro st2 t a h2
    simp only [handleStartTag]
    rcases Decidable.em (t = "meta") with h | h
    · simp only [h, if_pos rfl]
      rcases metaScan a with ⟨_ | e, c⟩
      · exact h2
      · rcases Decidable.em (e = "") with he | he <;> simp [he, h2]
    · rcases Decidable.em (t = "title") with h' | h' <;> simp [h, h', h2]
  have hkeep : (runEvents st pre).titleMatch = true := by
    induction pre generalizing st with
    | nil => exact harm
    | cons e rest ih =>
        obtain ⟨t, a, rfl⟩ := hpre _ (List.mem_cons_self _ _)
        exact ih _ (hopen _ _ _ harm) (fun e he => hpre _ (List.mem_cons_of_mem _ he))
  have hrun : runEvents st (pre ++ [HtmlEvent.text d])
      = handleData (runEvents st pre) d := by
    simp [runEvents, List.foldl_append, handleEvent]
  refine ⟨hkeep, ?_, ?_, ?_, ?_, hopen⟩
  · rw [hrun]
    simp only [handleData, hkeep, if_pos rfl]
    exact aget_aset_self _ _ _
  · rw [hrun]
    simp [handleData, hkeep]
  · intro st2 d2 h2
    simp [handleData, h2]
  · intro st2 t a ht
    simp only [handleStartTag]
    rcases Decidable.em (t = "meta") with h | h
    · simp only [h, if_pos rfl]
      rcases metaScan a with ⟨_ | e, c⟩
      · rfl
      · rcases Decidable.em (e = "") with he | he <;> simp [he]
    · simp [h, ht]

/-- Witness for C4: a `div` open tag between `<title>` and its text does
not prevent the capture. -/
theorem c4_witness :
    (runEvents ⟨[], true⟩ [HtmlEvent.startTag "div" []]).titleMatch = true ∧
    aget (runEvents ⟨[], true⟩
        [HtmlEvent.startTag "div" [], HtmlEvent.text "T"]).metadata "title"
      = some (MVal.str "T") ∧
    (runEvents ⟨[], true⟩
        [HtmlEvent.startTag "div" [], HtmlEvent.text "T"]).titleMatch = false ∧
    (∀ st2 d2, st2.titleMatch = false → handleData st2 d2 = st2) ∧
    (∀ st2 t a, t ≠ "title" →
      (handleStartTag st2 t a).titleMatch = st2.titleMatch) ∧
    (∀ st2 t a, st2.titleMatch = true →
      (handleStartTag st2 t a).titleMatch = true) :=
  c4_title_capture ⟨[], true⟩ [HtmlEvent.startTag "div" []] "T" rfl
    (by intro e he; simp at he; exact ⟨"div", [], he⟩)

/-! ## Loader lemmas and claims -/

def isErr {ε α : Type} : Except ε α → Bool
  | .error _ => true
  | .ok _ => false

/-- A fixed ambient environment for concrete evaluations. -/
def env0 : Nat → GenEnv := fun _ => ⟨0, fun _ => 0, 0⟩

/-- A tokenizer that emits no events; concrete inputs below never parse. -/
def tok0 : String → List HtmlEvent := fun _ => []

def defaultRow : TableRow := ⟨none, none, "", []⟩

def defaultDoc : Document := ⟨"", []⟩

lemma checkCols_none_valid (table : String) (colTypes : List (String × String)) :
    ∀ l : List String, checkCols table colTypes l = none →
      ∀ col ∈ l, isValidIdentifier col = true := by
  intro l
  induction l with
  | nil => intro _ col hc; cases hc
  | cons c cs ih =>
      intro h col hcol
      simp only [checkCols] at h
      split at h
      · simp at h
      · rename_i hv0
        have hv : isValidIdentifier c = true := by
          rcases hb : isValidIdentifier c with _ | _
          · rw [hb] at hv0; simp at hv0
          · rfl
        rcases List.mem_cons.mp hcol with rfl | hcol'
        · exact hv
        · split at h
          · simp at h
          · split at h
            · simp at h
            · split at h
              · exact ih h col hcol'
              · simp at h

/-- Claim C7: requesting more than 3 extra metadata columns is rejected
with an error before any database query runs. -/
theorem c7_excess_columns (cfg : LoaderCfg) (db : Db) (env : Nat → GenEnv)
    (tok : String → List HtmlEvent) (l : List String)
    (hm : cfg.mdata_cols = some l) (hl : 3 < l.length) :
    isErr (loadFromTable cfg db env tok).1 = true ∧
    (loadFromTable cfg db env tok).2 = [] := by
  obtain ⟨lf, ow, cn, mc⟩ := cfg
  simp only at hm
  subst hm
  rcases ow with _ | o
  · exact ⟨rfl, rfl⟩
  · rcases cn with _ | c
    · exact ⟨rfl, rfl⟩
    · simp only [loadFromTable]
      split
      · exact ⟨rfl, rfl⟩
      · split
        · exact ⟨rfl, rfl⟩
        · split
          · exact ⟨rfl, rfl⟩
          · split
            · exact ⟨rfl, rfl⟩
            · exact ⟨rfl, rfl⟩

/-- Witness for C7: four extra metadata columns are rejected up front. -/
theorem c7_witness :
    isErr (loadFromTable ⟨"T", some "A", some "C", some ["A1", "A2", "A3", "A4"]⟩
        ⟨none, none, none⟩ env0 tok0).1 = true ∧
    (loadFromTable ⟨"T", some "A", some "C", some ["A1", "A2", "A3", "A4"]⟩
        ⟨none, none, none⟩ env0 tok0).2 = [] :=
  c7_excess_columns _ ⟨none, none, none⟩ env0 tok0 ["A1", "A2", "A3", "A4"]
    rfl (by decide)

/-- Claim C1 (amended): owner, table and content-column names are checked
against `^[A-Za-z_][A-Za-z0-9_]*$` and any violation among them is
rejected, with its specific message, before any database query executes;
an invalid extra metadata column name is also always rejected before the
main query executes, but only after the catalog lookup has run. -/
theorem c1_identifier_validation (cfg : LoaderCfg) (db : Db)
    (env : Nat → GenEnv) (tok : String → List HtmlEvent) (o c : String)
    (ho : cfg.owner = some o) (hc : cfg.colname = some c)
    (ho' : o ≠ "") (hc' : c ≠ "")
    (hbad : isValidIdentifier o = false ∨
      isValidIdentifier cfg.loadFrom = false ∨
      isValidIdentifier c = false ∨
      ∃ l, cfg.mdata_cols = some l ∧
        ∃ col ∈ l, isValidIdentifier col = false) :
    isErr (loadFromTable cfg db env tok).1 = true ∧
    Query.mainQ ∉ (loadFromTable cfg db env tok).2 ∧
    ((isValidIdentifier o = false ∨ isValidIdentifier cfg.loadFrom = false ∨
        isValidIdentifier c = false) →
      (loadFromTable cfg db env tok).2 = []) ∧
    (isValidIdentifier o = false →
      (loadFromTable cfg db env tok).1 = Except.error "Invalid owner name") ∧
    (isValidIdentifier o = true → isValidIdentifier cfg.loadFrom = false →
      (loadFromTable cfg db env tok).1 = Except.error "Invalid table name") ∧
    (isValidIdentifier o = true → isValidIdentifier cfg.loadFrom = true →
      isValidIdentifier c = false →
      (loadFromTable cfg db env tok).1 = Except.error "Invalid column name") := by
  obtain ⟨lf, ow, cn, mc⟩ := cfg
  simp only at ho hc hbad ⊢
  subst ho hc
  have hne : ¬(o = "" ∨ c = "") := fun h => h.elim ho' hc'
  rcases hvo : isValidIdentifier o with _ | _
  · have hres : loadFromTable ⟨lf, some o, some c, mc⟩ db env tok
        = (Except.error "Invalid owner name", []) := by
      simp [loadFromTable, hne, hvo]
    rw [hres]
    refine ⟨rfl, by decide, fun _ => rfl, fun _ => rfl, ?_, ?_⟩
    · intro h1 _; simp at h1
    · intro h1 _ _; simp at h1
  · rcases hvt : isValidIdentifier lf with _ | _
    · have hres : loadFromTable ⟨lf, some o, some c, mc⟩ db env tok
          = (Except.error "Invalid table name", []) := by
        simp [loadFromTable, hne, hvo, hvt]
      rw [hres]
      refine ⟨rfl, by decide, fun _ => rfl, ?_, fun _ _ => rfl, ?_⟩
      · intro h1; simp at h1
      · intro _ h1 _; simp at h1
    · rcases hvc : isValidIdentifier c with _ | _
      · have hres : loadFromTable ⟨lf, some o, some c, mc⟩ db env tok
            = (Except.error "Invalid column name", []) := by
          simp [loadFromTable, hne, hvo, hvt, hvc]
        rw [hres]
        refine ⟨rfl, by decide, fun _ => rfl, ?_, ?_, fun _ _ _ => rfl⟩
        · intro h1; simp at h1
        · intro _ h1; simp at h1
      · rcases hbad with h1 | h1 | h1 | h1
        · rw [hvo] at h1; simp at h1
        · rw [hvt] at h1; simp at h1
        · rw [hvc] at h1; simp at h1
        · obtain ⟨l, hmc, col, hcol, hcolv⟩ := h1
          subst hmc
          have hvac : ¬(true = false ∨ true = false ∨ true = false) := by
            rintro (h2 | h2 | h2) <;> simp at h2
          have hmsg0 : true = false → False := by
            intro h2; simp at h2
          rcases Decidable.em (3 < l.length) with hlen | hlen
          · have hres : loadFromTable ⟨lf, some o, some c, some l⟩ db env tok
                = (Except.error "Exceeds max columns for metadata", []) := by
              simp [loadFromTable, hne, hvo, hvt, hvc, hlen]
            rw [hres]
            exact ⟨rfl, by decide, fun h2 => absurd h2 hvac,
              fun h2 => absurd h2 hmsg0,
              fun _ h2 => absurd h2 hmsg0,
              fun _ _ h2 => absurd h2 hmsg0⟩
          · rcases hdbc : db.catalogRows with _ | colRows
            · have hres : loadFromTable ⟨lf, some o, some c, some l⟩ db env tok
                  = (Except.error "Failed to retrieve column information",
                     [Query.catalog]) := by
                simp [loadFromTable, hne, hvo, hvt, hvc, hlen, hdbc]
              rw [hres]
              exact ⟨rfl, by decide, fun h2 => absurd h2 hvac,
                fun h2 => absurd h2 hmsg0,
                fun _ h2 => absurd h2 hmsg0,
                fun _ _ h2 => absurd h2 hmsg0⟩
            · rcases hcc : checkCols lf (buildColTypes colRows) l with _ | msg
              · exact absurd (checkCols_none_valid _ _ _ hcc col hcol)
                  (by rw [hcolv]; decide)
              · have hres : loadFromTable ⟨lf, some o, some c, some l⟩ db env tok
                    = (Except.error msg, [Query.catalog]) := by
                  simp [loadFromTable, hne, hvo, hvt, hvc, hlen, hdbc, hcc]
                rw [hres]
                exact ⟨rfl, (by decide : Query.mainQ ∉ [Query.catalog]),
                  fun h2 => absurd h2 hvac,
                  fun h2 => absurd h2 hmsg0,
                  fun _ h2 => absurd h2 hmsg0,
                  fun _ _ h2 => absurd h2 hmsg0⟩

/-- Counterexample to C1 as stated: with a valid owner, table and content
column but an invalid extra metadata column name, the loader does reject,
but only after the catalog query has already executed — not before any
database query. -/
theorem c1_counterexample :
    (loadFromTable ⟨"T", some "A", some "C", some ["bad col"]⟩
        ⟨some [], none, none⟩ env0 tok0).1
      = Except.error "Invalid column name in mdata_cols: bad col" ∧
    (loadFromTable ⟨"T", some "A", some "C", some ["bad col"]⟩
        ⟨some [], none, none⟩ env0 tok0).2 = [Query.catalog] :=
  ⟨rfl, rfl⟩

/-- Witness for C1 at an invalid table name. -/
theorem c1_witness :
    isErr (loadFromTable ⟨"T!", some "A", some "C", none⟩
        ⟨none, none, none⟩ env0 tok0).1 = true ∧
    Query.mainQ ∉ (loadFromTable ⟨"T!", some "A", some "C", none⟩
        ⟨none, none, none⟩ env0 tok0).2 := by
  have h := c1_identifier_validation ⟨"T!", some "A", some "C", none⟩
    ⟨none, none, none⟩ env0 tok0 "A" "C" rfl rfl (by decide) (by decide)
    (Or.inr (Or.inl (by decide)))
  exact ⟨h.1, h.2.1⟩

/-- Claim C6 (amended): every table-path load issues at most three
sequential round trips, in order: the catalog lookup (only when extra
metadata columns were requested), then the main query, then the
session-identity lookup `SELECT USER FROM dual`. -/
theorem c6_query_trace (cfg : LoaderCfg) (db : Db) (env : Nat → GenEnv)
    (tok : String → List HtmlEvent) :
    ((loadFromTable cfg db env tok).2 = [] ∨
     (loadFromTable cfg db env tok).2 = [Query.catalog] ∨
     (loadFromTable cfg db env tok).2 = [Query.mainQ, Query.userQ] ∨
     (loadFromTable cfg db env tok).2
        = [Query.catalog, Query.mainQ, Query.userQ]) ∧
    (loadFromTable cfg db env tok).2.length ≤ 3 ∧
    (Query.catalog ∈ (loadFromTable cfg db env tok).2 →
      ∃ l, cfg.mdata_cols = some l) := by
  obtain ⟨lf, ow, cn, mc⟩ := cfg
  simp only
  rcases ow with _ | o
  · exact ⟨Or.inl rfl, Nat.le_of_sub_eq_zero rfl,
      fun h => absurd h (List.not_mem_nil _)⟩
  · rcases cn with _ | c
    · exact ⟨Or.inl rfl, Nat.le_of_sub_eq_zero rfl,
        fun h => absurd h (List.not_mem_nil _)⟩
    · simp only [loadFromTable]
      split
      · exact ⟨Or.inl rfl, Nat.le_of_sub_eq_zero rfl,
          fun h => absurd h (List.not_mem_nil _)⟩
      · split
        · exact ⟨Or.inl rfl, Nat.le_of_sub_eq_zero rfl,
            fun h => absurd h (List.not_mem_nil _)⟩
        · split
          · exact ⟨Or.inl rfl, Nat.le_of_sub_eq_zero rfl,
              fun h => absurd h (List.not_mem_nil _)⟩
          · split
            · exact ⟨Or.inl rfl, Nat.le_of_sub_eq_zero rfl,
                fun h => absurd h (List.not_mem_nil _)⟩
            · split
              · split
                · exact ⟨Or.inl rfl, Nat.le_of_sub_eq_zero rfl,
                    fun _ => ⟨_, rfl⟩⟩
                · split
                  · exact ⟨Or.inr (Or.inl rfl), Nat.le_of_sub_eq_zero rfl,
                      fun _ => ⟨_, rfl⟩⟩
                  · split
                    · exact ⟨Or.inr (Or.inl rfl), Nat.le_of_sub_eq_zero rfl,
                        fun _ => ⟨_, rfl⟩⟩
                    · exact ⟨Or.inr (Or.inr (Or.inr rfl)),
                        Nat.le_of_sub_eq_zero rfl, fun _ => ⟨_, rfl⟩⟩
              · exact ⟨Or.inr (Or.inr (Or.inl rfl)),
                  Nat.le_of_sub_eq_zero rfl,
                  fun h => absurd h
                    (by decide : ¬ Query.catalog ∈ [Query.mainQ, Query.userQ])⟩

/-- Counterexample to C6 as stated: with one extra metadata column the
loader issues three round trips — catalog, main query, and the
session-identity query — not at most two. -/
theorem c6_counterexample :
    (loadFromTable ⟨"T", some "A", some "C", some ["ID"]⟩
        ⟨some [("ID", "NUMBER")], some [], none⟩ env0 tok0).2
      = [Query.catalog, Query.mainQ, Query.userQ] ∧
    2 < (loadFromTable ⟨"T", some "A", some "C", some ["ID"]⟩
        ⟨some [("ID", "NUMBER")], some [], none⟩ env0 tok0).2.length :=
  ⟨rfl, by decide⟩

/-- Witness for C6 at a concrete configuration. -/
theorem c6_witness :
    (loadFromTable ⟨"T", some "A", some "C", none⟩
        ⟨none, some [], none⟩ env0 tok0).2.length ≤ 3 :=
  (c6_query_trace ⟨"T", some "A", some "C", none⟩
    ⟨none, some [], none⟩ env0 tok0).2.1

/-! ## Success-path lemmas -/

lemma buildDocs_length (o table c : String) (mcols : List String)
    (tok : String → List HtmlEvent) (username : String) (env : Nat → GenEnv) :
    ∀ (n : Nat) (rows : List TableRow),
      (buildDocs o table c mcols tok username env n rows).length
        = rows.length := by
  intro n rows
  induction rows generalizing n with
  | nil => rfl
  | cons r rs ih => simp [buildDocs, ih]

lemma buildDocs_getD (o table c : String) (mcols : List String)
    (tok : String → List HtmlEvent) (username : String) (env : Nat → GenEnv) :
    ∀ (rows : List TableRow) (n i : Nat), i < rows.length →
      (buildDocs o table c mcols tok username env n rows).getD i defaultDoc
        = buildDoc o table c mcols tok username (env (n + i))
            (rows.getD i defaultRow) := by
  intro rows
  induction rows with
  | nil => intro n i hlt; cases hlt
  | cons r rs ih =>
      intro n i hlt
      cases i with
      | zero => simp [buildDocs]
      | succ j =>
          have hj : j < rs.length := by
            simpa using hlt
          simp only [buildDocs, List.getD_cons_succ]
          rw [ih (n + 1) j hj]
          have harg : n + 1 + j = n + (j + 1) := by omega
          rw [harg]

/-- Inversion of a successful `loadFromTable`: the documents are exactly
the per-row assembly over the main query's rows. -/
lemma loadFromTable_ok (cfg : LoaderCfg) (db : Db) (env : Nat → GenEnv)
    (tok : String → List HtmlEvent) (o c : String)
    (docs : List Document) (tr : List Query)
    (ho : cfg.owner = some o) (hc : cfg.colname = some c)
    (h : loadFromTable cfg db env tok = (Except.ok docs, tr)) :
    docs = buildDocs o cfg.loadFrom c (cfg.mdata_cols.getD []) tok
      (getUsername db) env 0 (db.mainRows.getD []) := by
  obtain ⟨lf, ow, cn, mc⟩ := cfg
  simp only at ho hc ⊢
  subst ho hc
  simp only [loadFromTable] at h
  split at h
  · exact absurd h (by simp)
  · split at h
    · exact absurd h (by simp)
    · split at h
      · exact absurd h (by simp)
      · split at h
        · exact absurd h (by simp)
        · split at h
          · split at h
            · exact absurd h (by simp)
            · split at h
              · exact absurd h (by simp)
              · split at h
                · exact absurd h (by simp)
                · simp only [mainPhase, Prod.mk.injEq] at h
                  have := h.1
                  simp only [Except.ok.injEq] at this
                  exact this.symm
          · simp only [mainPhase, Prod.mk.injEq] at h
            have := h.1
            simp only [Except.ok.injEq] at this
            exact this.symm

/-- `buildDoc`'s metadata when the row's `MDATA` is null or carries no
HTML signature: the parser is not invoked, so the map starts empty. -/
lemma buildDoc_metadata_nil (o table c : String) (mcols : List String)
    (tok : String → List HtmlEvent) (username : String) (g : GenEnv)
    (row : TableRow)
    (hmd : row.mdata = none ∨ ∃ s, row.mdata = some s ∧
      (s != "" && (s.startsWith "<!DOCTYPE html" || s.startsWith "<HTML>"))
        = false) :
    (buildDoc o table c mcols tok username g row).metadata =
      mcols.foldl (fun m col => aset m col (rowVal row col))
        (aset (aset [] "_oid" (MVal.str (generateObjectId
            (some (seedFor username o table c row.rowid)) g)))
          "_rowid" (MVal.str row.rowid)) := by
  simp only [buildDoc]
  rcases hmd with hmd | ⟨s, hs, hfalse⟩
  · rw [hmd]
  · rw [hs]
    simp [hfalse]

/-- Claim C9 (amended): every document of a successful table load carries
`metadata._oid` equal to the freshly generated object id and
`metadata._rowid` equal to the row identifier — the reserved keys are
written after HTML parsing, so they win over any parsed keys — provided
no requested extra metadata column is itself named `_oid` or `_rowid`
(such a column is copied later still and would overwrite them). -/
theorem c9_reserved_keys (cfg : LoaderCfg) (db : Db) (env : Nat → GenEnv)
    (tok : String → List HtmlEvent) (o c : String)
    (docs : List Document) (tr : List Query) (rows : List TableRow) (i : Nat)
    (ho : cfg.owner = some o) (hc : cfg.colname = some c)
    (hrows : db.mainRows = some rows)
    (h : loadFromTable cfg db env tok = (Except.ok docs, tr))
    (h1 : "_oid" ∉ cfg.mdata_cols.getD [])
    (h2 : "_rowid" ∉ cfg.mdata_cols.getD [])
    (hi : i < rows.length) :
    docs.length = rows.length ∧
    aget (docs.getD i defaultDoc).metadata "_oid"
      = some (MVal.str (generateObjectId
          (some (seedFor (getUsername db) o cfg.loadFrom c
            (rows.getD i defaultRow).rowid)) (env i))) ∧
    aget (docs.getD i defaultDoc).metadata "_rowid"
      = some (MVal.str (rows.getD i defaultRow).rowid) := by
  have hd := loadFromTable_ok cfg db env tok o c docs tr ho hc h
  rw [hrows] at hd
  simp only [Option.getD_some] at hd
  subst hd
  refine ⟨buildDocs_length _ _ _ _ _ _ _ _ _, ?_, ?_⟩
  · rw [buildDocs_getD _ _ _ _ _ _ _ rows 0 i hi, Nat.zero_add]
    simp only [buildDoc]
    rw [aget_foldl_aset_not_mem _ _ _ _ h1,
      aget_aset_ne _ _ _ _ (by decide), aget_aset_self]
  · rw [buildDocs_getD _ _ _ _ _ _ _ rows 0 i hi, Nat.zero_add]
    simp only [buildDoc]
    rw [aget_foldl_aset_not_mem _ _ _ _ h2, aget_aset_self]

/-- Counterexample to C9 as stated: a requested extra metadata column
named `_oid` overwrites the generated object id (its value `"boom"` is
not the 32-character generated id). -/
theorem c9_counterexample :
    ∃ docs tr,
      loadFromTable ⟨"T", some "A", some "C", some ["_oid"]⟩
          ⟨some [("_oid", "VARCHAR2")],
           some [⟨none, none, "R1", [("_oid", MVal.str "boom")]⟩], none⟩
          env0 tok0
        = (Except.ok docs, tr) ∧
      aget (docs.getD 0 defaultDoc).metadata "_oid"
        = some (MVal.str "boom") ∧
      MVal.str "boom" ≠ MVal.str (generateObjectId
        (some (seedFor "unknown_user" "A" "T" "C" "R1")) (env0 0)) := by
  refine ⟨_, _, rfl, rfl, ?_⟩
  intro hcontra
  simp only [MVal.str.injEq] at hcontra
  have hlen := generateObjectId_length
    (some (seedFor "unknown_user" "A" "T" "C" "R1")) (env0 0)
  rw [← hcontra] at hlen
  exact absurd hlen (by decide)

/-- Witness for C9 at a concrete one-row table. -/
theorem c9_witness :
    ∃ docs tr,
      loadFromTable ⟨"T", some "A", some "C", none⟩
          ⟨none, some [⟨none, none, "R1", []⟩], none⟩ env0 tok0
        = (Except.ok docs, tr) ∧
      docs.length = 1 ∧
      aget (docs.getD 0 defaultDoc).metadata "_oid"
        = some (MVal.str (generateObjectId
            (some (seedFor "unknown_user" "A" "T" "C" "R1")) (env0 0))) ∧
      aget (docs.getD 0 defaultDoc).metadata "_rowid"
        = some (MVal.str "R1") := by
  refine ⟨_, _, rfl, ?_, ?_, ?_⟩
  all_goals
    have h := c9_reserved_keys ⟨"T", some "A", some "C", none⟩
      ⟨none, some [⟨none, none, "R1", []⟩], none⟩ env0 tok0 "A" "C" _ _
      [⟨none, none, "R1", []⟩] 0 rfl rfl rfl rfl (by decide) (by decide)
      (by decide)
  exacts [h.1, h.2.1, h.2.2]

/-- Claim C5 (amended): `MDATA` is fed through the metadata parser only
when it is truthy and starts with `"<!DOCTYPE html"` or `"<HTML>"`; a row
whose `MDATA` is null (or fails that signature) yields a document whose
metadata keys are exactly `_oid`, `_rowid` and the requested extra
columns, and carries no `title` key provided no requested extra column is
itself named `title`. -/
theorem c5_null_mdata_keys (cfg : LoaderCfg) (db : Db) (env : Nat → GenEnv)
    (tok : String → List HtmlEvent) (o c : String)
    (docs : List Document) (tr : List Query) (rows : List TableRow) (i : Nat)
    (ho : cfg.owner = some o) (hc : cfg.colname = some c)
    (hrows : db.mainRows = some rows)
    (h : loadFromTable cfg db env tok = (Except.ok docs, tr))
    (hi : i < rows.length)
    (hmd : (rows.getD i defaultRow).mdata = none ∨
      ∃ s, (rows.getD i defaultRow).mdata = some s ∧
        (s != "" && (s.startsWith "<!DOCTYPE html" || s.startsWith "<HTML>"))
          = false) :
    docs.length = rows.length ∧
    (∀ k, (aget (docs.getD i defaultDoc).metadata k).isSome = true ↔
      (k = "_oid" ∨ k = "_rowid" ∨ k ∈ cfg.mdata_cols.getD [])) ∧
    ("title" ∉ cfg.mdata_cols.getD [] →
      aget (docs.getD i defaultDoc).metadata "title" = none) := by
  have hd := loadFromTable_ok cfg db env tok o c docs tr ho hc h
  rw [hrows] at hd
  simp only [Option.getD_some] at hd
  subst hd
  refine ⟨buildDocs_length _ _ _ _ _ _ _ _ _, ?_, ?_⟩
  · intro k
    rw [buildDocs_getD _ _ _ _ _ _ _ rows 0 i hi, Nat.zero_add,
      buildDoc_metadata_nil _ _ _ _ _ _ _ _ hmd]
    rw [isSome_aget_foldl_aset, isSome_aget_aset, isSome_aget_aset]
    simp only [aget, Option.isSome_none, Bool.false_eq_true, or_false]
    tauto
  · intro hti
    rw [buildDocs_getD _ _ _ _ _ _ _ rows 0 i hi, Nat.zero_add,
      buildDoc_metadata_nil _ _ _ _ _ _ _ _ hmd]
    rw [aget_foldl_aset_not_mem _ _ _ _ hti,
      aget_aset_ne _ _ _ _ (by decide), aget_aset_ne _ _ _ _ (by decide)]
    rfl

/-- Counterexample to C5 as stated: with a requested extra metadata
column named `title`, a row whose `MDATA` is null still yields a document
carrying a `title` key. -/
theorem c5_counterexample :
    ∃ docs tr,
      loadFromTable ⟨"T", some "A", some "C", some ["title"]⟩
          ⟨some [("title", "VARCHAR2")],
           some [⟨none, some "t", "R1", [("title", MVal.str "X")]⟩], none⟩
          env0 tok0
        = (Except.ok docs, tr) ∧
      ([(⟨none, some "t", "R1", [("title", MVal.str "X")]⟩ : TableRow)].getD 0
          defaultRow).mdata = none ∧
      aget (docs.getD 0 defaultDoc).metadata "title"
        = some (MVal.str "X") :=
  ⟨_, _, rfl, rfl, rfl⟩

/-- Witness for C5 at a concrete one-row table with one extra column. -/
theorem c5_witness :
    ∃ docs tr,
      loadFromTable ⟨"T", some "A", some "C", some ["AUTHOR"]⟩
          ⟨some [("AUTHOR", "VARCHAR2")],
           some [⟨none, some "t", "R1", [("AUTHOR", MVal.str "a")]⟩], none⟩
          env0 tok0
        = (Except.ok docs, tr) ∧
      docs.length = 1 ∧
      aget (docs.getD 0 defaultDoc).metadata "title" = none ∧
      (aget (docs.getD 0 defaultDoc).metadata "AUTHOR").isSome = true := by
  refine ⟨_, _, rfl, ?_, ?_, ?_⟩
  all_goals
    have h := c5_null_mdata_keys ⟨"T", some "A", some "C", some ["AUTHOR"]⟩
      ⟨some [("AUTHOR", "VARCHAR2")],
       some [⟨none, some "t", "R1", [("AUTHOR", MVal.str "a")]⟩], none⟩
      env0 tok0 "A" "C" _ _
      [⟨none, some "t", "R1", [("AUTHOR", MVal.str "a")]⟩] 0 rfl rfl rfl rfl
      (by decide) (Or.inl rfl)
  exacts [h.1, h.2.2 (by decide), (h.2.1 "AUTHOR").mpr (Or.inr (Or.inr (by decide)))]

/-- Claim C10: if `SELECT USER FROM dual` returns no rows or a null
value, a table-path load does not fail — the session identity falls back
to the literal `"unknown_user"` and id generation proceeds with it as the
session-identity component of every seed. -/
theorem c10_unknown_user (cfg : LoaderCfg) (db : Db) (env : Nat → GenEnv)
    (tok : String → List HtmlEvent) (o c : String) (rows : List TableRow)
    (ho : cfg.owner = some o) (hc : cfg.colname = some c)
    (ho' : o ≠ "") (hc' : c ≠ "")
    (hvo : isValidIdentifier o = true)
    (hvt : isValidIdentifier cfg.loadFrom = true)
    (hvc : isValidIdentifier c = true)
    (hm : cfg.mdata_cols = none) (hrows : db.mainRows = some rows)
    (hu : db.userRow = none ∨ db.userRow = some none) :
    getUsername db = "unknown_user" ∧
    loadFromTable cfg db env tok
      = (Except.ok (buildDocs o cfg.loadFrom c [] tok "unknown_user" env 0 rows),
         [Query.mainQ, Query.userQ]) := by
  have hun : getUsername db = "unknown_user" := by
    rcases hu with h | h <;> simp [getUsername, h]
  refine ⟨hun, ?_⟩
  obtain ⟨lf, ow, cn, mc⟩ := cfg
  simp only at ho hc hm hvt ⊢
  subst ho hc hm
  have hne : ¬(o = "" ∨ c = "") := fun h => h.elim ho' hc'
  simp [loadFromTable, hne, hvo, hvt, hvc, mainPhase, hrows, hun]

/-- Witness for C10: a null session-identity cell still loads the table. -/
theorem c10_witness :
    getUsername ⟨none, some [⟨none, some "txt", "R1", []⟩], some none⟩
      = "unknown_user" ∧
    loadFromTable ⟨"T", some "A", some "C", none⟩
        ⟨none, some [⟨none, some "txt", "R1", []⟩], some none⟩ env0 tok0
      = (Except.ok (buildDocs "A" "T" "C" [] tok0 "unknown_user" env0 0
          [⟨none, some "txt", "R1", []⟩]),
         [Query.mainQ, Query.userQ]) := by
  have h := c10_unknown_user ⟨"T", some "A", some "C", none⟩
    ⟨none, some [⟨none, some "txt", "R1", []⟩], some none⟩ env0 tok0
    "A" "C" [⟨none, some "txt", "R1", []⟩] rfl rfl (by decide) (by decide)
    (by decide) (by decide) (by decide) rfl rfl (Or.inr rfl)
  exact ⟨h.1, h.2⟩

/-- Claim C8: any exception raised in `readFile`'s body — during the file
read, the extraction call, or a CLOB read — is caught, and the call
yields no document (`none`, the model of `null`) instead of propagating;
a document is returned exactly when the body ran without exception. -/
theorem c8_readFile_catches (filePath : String)
    (tok : String → List HtmlEvent) (env : FileEnv) :
    (∀ e, env.readData = Except.error e → readFile filePath tok env = none) ∧
    (∀ bs e, env.readData = Except.ok (some bs) →
      env.execOut = Except.error e → readFile filePath tok env = none) ∧
    (∀ bs p e, env.readData = Except.ok (some bs) →
      env.execOut = Except.ok p → p.1 = some (Except.error e) →
      readFile filePath tok env = none) ∧
    (∀ e, readFileBody filePath tok env = Except.error e →
      readFile filePath tok env = none) ∧
    (∀ doc, readFile filePath tok env = some doc →
      readFileBody filePath tok env = Except.ok doc) := by
  refine ⟨?_, ?_, ?_, ?_, ?_⟩
  · intro e he
    have hbody : readFileBody filePath tok env = Except.error e := by
      unfold readFileBody
      rw [he]
      rfl
    unfold readFile
    rw [hbody]
  · intro bs e hr he
    have hbody : readFileBody filePath tok env = Except.error e := by
      unfold readFileBody
      rw [hr, he]
      rfl
    unfold readFile
    rw [hbody]
  · intro bs p e hr he hp
    obtain ⟨m, t⟩ := p
    simp only at hp
    subst hp
    have hbody : ∃ e2, readFileBody filePath tok env = Except.error e2 := by
      refine ⟨e, ?_⟩
      unfold readFileBody
      rw [hr, he]
      rfl
    obtain ⟨e2, hbody⟩ := hbody
    unfold readFile
    rw [hbody]
  · intro e hbody
    unfold readFile
    rw [hbody]
  · intro doc hdoc
    rcases hbody : readFileBody filePath tok env with e | d
    · unfold readFile at hdoc
      rw [hbody] at hdoc
      cases hdoc
    · unfold readFile at hdoc
      rw [hbody] at hdoc
      cases hdoc
      rfl

/-- Witness for C8 at a failing file read. -/
theorem c8_witness :
    readFile "f.pdf" tok0
      ⟨Except.error "ENOENT", Except.ok (none, none), Except.ok none,
       ⟨0, fun _ => 0, 0⟩⟩ = none :=
  (c8_readFile_catches "f.pdf" tok0
    ⟨Except.error "ENOENT", Except.ok (none, none), Except.ok none,
     ⟨0, fun _ => 0, 0⟩⟩).1 "ENOENT" rfl
